import Mathlib

/-!
Shallow embedding of the mail-queue repository (Go): the email task model,
its JSON wire encoding, the Redis-backed queue operations
(`EnqueueEmail`, `sendEmailWithRetry`, `processNextTask`, `StartWorker`
from internal/redisQueue/redis.go), the template renderer
(`Render`, `RenderWithSafeURLs` from internal/emailTemplate/template.go)
and the SMTP sender (`NewSender`, `SendEmail`, `validateSMTPConfig` from
internal/senderSide).

Conventions of the embedding:
* Go `map[string]T` is modelled as an association list `List (String × T)`
  (maps built by the Go code always have distinct keys; lookups take the
  first match, insertion replaces in place).
* Go `interface{}` data values are the inductive `GoVal`; the JSON document
  produced by `json.Marshal` is the inductive `Json` (the byte-string layer
  of the encoding is injective and therefore elided).
* External effects (SMTP delivery, the Redis connection failing, `url.Parse`)
  are oracle parameters; the Redis list itself is an explicit `List Json`.
* Structured log output is modelled as a `List LogEvent` trace.
-/

namespace MailQueue

/-- Go `interface{}` values as they occur in template data: scalars that the
intake layer produces (string, int, float64, bool) plus the shapes JSON
decoding can produce (null, arrays, nested objects). -/
inductive GoVal where
  | str (s : String)
  | int (n : Int)
  | float (q : ℚ)
  | bool (b : Bool)
  | null
  | arr (xs : List GoVal)
  | obj (fs : List (String × GoVal))

/-- JSON documents, the wire form held in the Redis list.  Go serializes
`float64` with a shortest round-tripping decimal, so a JSON number is
modelled by its exact value `ℚ`. -/
inductive Json where
  | str (s : String)
  | num (q : ℚ)
  | bool (b : Bool)
  | null
  | arr (xs : List Json)
  | obj (fs : List (String × Json))

/-- `2 ^ e` as a rational, for an integer exponent. -/
def pow2 (e : Int) : ℚ := (2:ℚ) ^ e

/-- The exponent `E` with `2 ^ E ≤ x < 2 ^ (E + 1)` for a positive rational
`x`, computed from the bit lengths of numerator and denominator. -/
def floorLog2 (x : ℚ) : Int :=
  if pow2 ((Nat.log 2 x.num.toNat : Int) - (Nat.log 2 x.den : Int)) ≤ x
  then (Nat.log 2 x.num.toNat : Int) - (Nat.log 2 x.den : Int)
  else (Nat.log 2 x.num.toNat : Int) - (Nat.log 2 x.den : Int) - 1

/-- Nearest integer, ties to even: the rounding IEEE 754 applies to the
scaled significand. -/
def rndInt (y : ℚ) : Int :=
  if y - (⌊y⌋ : ℚ) < 1/2 then ⌊y⌋
  else if 1/2 < y - (⌊y⌋ : ℚ) then ⌊y⌋ + 1
  else if ⌊y⌋ % 2 = 0 then ⌊y⌋ else ⌊y⌋ + 1

/-- The value semantics of `strconv.ParseFloat`, which Go's JSON decoder
applies to every number it stores into an `interface{}`: round to the
nearest IEEE-754 binary64 value, ties to even, with gradual underflow below
`2 ^ -1074`.  Overflow past the largest finite double (where Go reports an
unmarshal error) is outside the range any encoder-produced document
reaches and is not modelled. -/
def roundFloat64 (q : ℚ) : ℚ :=
  if q = 0 then 0
  else
    (rndInt (q / pow2 (max (floorLog2 |q| - 52) (-1074))) : ℚ) *
      pow2 (max (floorLog2 |q| - 52) (-1074))

/-- The finite IEEE-754 binary64 values: `m * 2 ^ e` with 53-bit
significand and double-precision exponent range.  Every Go `float64` data
value denotes such a rational. -/
def isFloat64 (q : ℚ) : Prop :=
  ∃ m e : Int, |m| < 2 ^ 53 ∧ -1074 ≤ e ∧ e ≤ 971 ∧ q = (m : ℚ) * pow2 e

mutual

/-- `json.Marshal` on an `interface{}` value: Go ints and floats both
serialize as JSON numbers.  (For a `float64`, Go prints the shortest
decimal that parses back to the same double; the number value recorded
here is the double's exact value, which also parses back to it, so the
composed encode/decode behavior is unchanged.) -/
def goValToJson : GoVal → Json
  | .str s => .str s
  | .int n => .num (n : ℚ)
  | .float q => .num q
  | .bool b => .bool b
  | .null => .null
  | .arr xs => .arr (goValListToJson xs)
  | .obj fs => .obj (goValFieldsToJson fs)

def goValListToJson : List GoVal → List Json
  | [] => []
  | x :: xs => goValToJson x :: goValListToJson xs

def goValFieldsToJson : List (String × GoVal) → List (String × Json)
  | [] => []
  | kv :: fs => (kv.1, goValToJson kv.2) :: goValFieldsToJson fs

end

mutual

/-- `json.Unmarshal` of a JSON value into `interface{}`: every JSON number
becomes a Go `float64` — `strconv.ParseFloat` rounds the decimal value to
the nearest binary64, so integers beyond `2 ^ 53` lose precision — while
strings/bools/null/arrays/objects keep their shape. -/
def jsonToGoVal : Json → GoVal
  | .str s => .str s
  | .num q => .float (roundFloat64 q)
  | .bool b => .bool b
  | .null => .null
  | .arr xs => .arr (jsonListToGoVal xs)
  | .obj fs => .obj (jsonFieldsToGoVal fs)

def jsonListToGoVal : List Json → List GoVal
  | [] => []
  | x :: xs => jsonToGoVal x :: jsonListToGoVal xs

def jsonFieldsToGoVal : List (String × Json) → List (String × GoVal)
  | [] => []
  | kv :: fs => (kv.1, jsonToGoVal kv.2) :: jsonFieldsToGoVal fs

end

/-- What one round trip through the wire encoding does to a single
`interface{}` data value. -/
def decodeVal (v : GoVal) : GoVal := jsonToGoVal (goValToJson v)

/-- The task struct `EmailTask` of internal/redisQueue/redis.go: recipient,
subject, template name, template data and the retry counter (`json` tags
`to`, `subject`, `templateName`, `data`, `retries,omitempty`). -/
structure EmailTask where
  To : String
  Subject : String
  TemplateName : String
  Data : List (String × GoVal)
  Retries : Int

/-- `maxRetries = 3` from redis.go. -/
def maxRetries : Int := 3

/-- `json.Marshal` of an `EmailTask`: an object with the tagged field names;
`retries` carries `omitempty`, so it is present exactly when nonzero.
(Go writes object keys of the `data` map in sorted order; key order is not
observable to the decoder, so the insertion order is kept here.) -/
def marshalTask (t : EmailTask) : Json :=
  .obj ([("to", .str t.To), ("subject", .str t.Subject),
         ("templateName", .str t.TemplateName),
         ("data", .obj (goValFieldsToJson t.Data))] ++
        (if t.Retries = 0 then [] else [("retries", .num (t.Retries : ℚ))]))

/-- Field lookup as the Go JSON decoder resolves object keys (a later
duplicate key overwrites an earlier one). -/
def getField (fs : List (String × Json)) (k : String) : Option Json :=
  fs.foldl (fun acc kv => if kv.1 = k then some kv.2 else acc) none

/-- Decoding a JSON object member into a Go `string` struct field: absent or
null leaves the zero value, a string is taken as is, anything else is a type
error. -/
def decodeStringField : Option Json → Except String String
  | none => .ok ""
  | some (.str s) => .ok s
  | some .null => .ok ""
  | some _ => .error "cannot unmarshal into field of type string"

/-- Decoding a JSON object member into a Go `int` struct field.  The Go
decoder accepts exactly the integer-formatted number literals; its own
encoder prints integral values without a fraction, so on wire documents the
encoder can produce this is the `den = 1` test. -/
def decodeIntField : Option Json → Except String Int
  | none => .ok 0
  | some (.num q) =>
      if q.den = 1 then .ok q.num
      else .error "cannot unmarshal number into field of type int"
  | some .null => .ok 0
  | some _ => .error "cannot unmarshal into field of type int"

/-- Decoding a JSON object member into `map[string]interface{}`: absent or
null leaves the nil map, an object decodes member-wise, anything else is a
type error. -/
def decodeDataField : Option Json → Except String (List (String × GoVal))
  | none => .ok []
  | some .null => .ok []
  | some (.obj fs) => .ok (jsonFieldsToGoVal fs)
  | some _ => .error "cannot unmarshal into field of type map"

/-- `json.Unmarshal(payload, &task)` for an `EmailTask` target: the payload
must be a JSON object (or `null`, which leaves the zero task); unknown keys
are ignored; each known key decodes per its field type. -/
def unmarshalTask : Json → Except String EmailTask
  | .obj fs => do
      let toAddr ← decodeStringField (getField fs "to")
      let subject ← decodeStringField (getField fs "subject")
      let templateName ← decodeStringField (getField fs "templateName")
      let data ← decodeDataField (getField fs "data")
      let retries ← decodeIntField (getField fs "retries")
      return ⟨toAddr, subject, templateName, data, retries⟩
  | .null => .ok ⟨"", "", "", [], 0⟩
  | _ => .error "cannot unmarshal non-object into EmailTask"

/-- The structured log calls the queue code makes (`q.logger.Info/Warn/Error`
in redis.go), recorded as a trace. -/
inductive LogEvent where
  | infoEnqueued (toAddr subject : String)
  | infoSent (toAddr subject : String)
  | warnRequeue (toAddr subject : String) (retries : Int) (err : String)
  | errorMaxRetries (toAddr subject : String) (err : String)
  | errorTaskProcessing (err : String)
  | infoWorkerStopped

/-- Result of one queue-side call: the value returned to the caller
(`none` models a nil error, `some msg` an error whose `Error()` text is
`msg`), the Redis list after the call, and the log events emitted. -/
structure QueueResult where
  ret : Option String
  store : List Json
  logs : List LogEvent

/-- `validateEmailTask` from redis.go: the three emptiness checks, first
failure wins. -/
def validateEmailTask (tsk : EmailTask) : Option String :=
  if tsk.To = "" then some "recipient email is required"
  else if tsk.Subject = "" then some "email subject is required"
  else if tsk.TemplateName = "" then some "email template name is required"
  else none

/-- `EnqueueEmail` from redis.go: validate, serialize, `RPUSH` to the queue
key, log on success.  `json.Marshal` cannot fail on an `EmailTask` whose
data holds `GoVal` values, so that branch has no counterpart here; the
outcome of the `RPUSH` network call is the oracle `rpushErr` (a failed push
appends nothing). -/
def EnqueueEmail (store : List Json) (tsk : EmailTask) (rpushErr : Option String) :
    QueueResult :=
  match validateEmailTask tsk with
  | some e => ⟨some ("invalid email task: " ++ e), store, []⟩
  | none =>
    match rpushErr with
    | some e => ⟨some ("failed to enqueue email task: " ++ e), store, []⟩
    | none => ⟨none, store ++ [marshalTask tsk], [.infoEnqueued tsk.To tsk.Subject]⟩

/-- `sendEmailWithRetry` from redis.go.  The outcome of this attempt's
`sender.SendEmail` call is the oracle `sendErr`; the `time.Sleep(retryDelay)`
has no observable counterpart in the embedding. -/
def sendEmailWithRetry (store : List Json) (tsk : EmailTask)
    (sendErr : Option String) (rpushErr : Option String) : QueueResult :=
  match sendErr with
  | none => ⟨none, store, [.infoSent tsk.To tsk.Subject]⟩
  | some err =>
    if tsk.Retries < maxRetries then
      let tsk' : EmailTask := { tsk with Retries := tsk.Retries + 1 }
      let r := EnqueueEmail store tsk' rpushErr
      match r.ret with
      | some requeueErr =>
          ⟨some ("failed to requeue email: " ++ requeueErr ++
                 " (original error: " ++ err ++ ")"),
           r.store, .warnRequeue tsk.To tsk.Subject tsk'.Retries err :: r.logs⟩
      | none => ⟨none, r.store, .warnRequeue tsk.To tsk.Subject tsk'.Retries err :: r.logs⟩
    else
      ⟨some err, store, [.errorMaxRetries tsk.To tsk.Subject err]⟩

/-- The possible outcomes of the `BLPop` call at the head of
`processNextTask`: a payload removed from the store, the benign
`redis.Nil` / `context.Canceled` results, another store error, or the
defensive `len(result) < 2` branch.  In the worker model the store field
already reflects the removal, and the popped payload rides on the event. -/
inductive PopResult where
  | popped (payload : Json)
  | redisNil
  | canceled
  | storeErr (msg : String)
  | shortReply

/-- `processNextTask` from redis.go: classify the pop, deserialize, hand off
to `sendEmailWithRetry`. -/
def processNextTask (store : List Json) (pop : PopResult)
    (sendErr rpushErr : Option String) : QueueResult :=
  match pop with
  | .redisNil => ⟨none, store, []⟩
  | .canceled => ⟨none, store, []⟩
  | .storeErr m => ⟨some ("queue retrieval error: " ++ m), store, []⟩
  | .shortReply => ⟨some "invalid queue result", store, []⟩
  | .popped j =>
    match unmarshalTask j with
    | .error e => ⟨some ("task deserialization error: " ++ e), store, []⟩
    | .ok tsk => sendEmailWithRetry store tsk sendErr rpushErr

/-- One event seen by the `StartWorker` loop: either the cancellation signal
is set at the loop head, or an iteration runs with the given pop outcome and
delivery/requeue oracles. -/
inductive WorkerEvent where
  | cancel
  | iter (pop : PopResult) (sendErr rpushErr : Option String)

/-- Worker state: the Redis list, the log trace, and whether the loop has
returned. -/
structure WState where
  store : List Json
  logs : List LogEvent
  stopped : Bool

/-- `StartWorker` from redis.go over a finite event trace: on cancellation
log and return; otherwise run `processNextTask`, log any returned error
(the `time.Sleep(queueCheckInterval)` backoff is not observable here), and
loop. -/
def runWorker (s : WState) : List WorkerEvent → WState
  | [] => s
  | .cancel :: _ => ⟨s.store, s.logs ++ [.infoWorkerStopped], true⟩
  | .iter pop se re :: rest =>
    let r := processNextTask s.store pop se re
    let lg :=
      match r.ret with
      | some e => r.logs ++ [.errorTaskProcessing e]
      | none => r.logs
    runWorker ⟨r.store, s.logs ++ lg, s.stopped⟩ rest

/-- Template data values: either a plain `interface{}` value or a
`template.URL`-marked string, as stored into `safeData` by
`RenderWithSafeURLs`. -/
inductive TValue where
  | val (v : GoVal)
  | safeURL (s : String)

/-- A compiled template is observable only through execution: data in,
rendered body or error out (`tmpl.Execute`). -/
def TemplateFn : Type := List (String × TValue) → Except String String

/-- The template `Manager` of internal/emailTemplate/template.go: the
name-to-compiled-template map loaded at startup. -/
structure Manager where
  templates : List (String × TemplateFn)

/-- Go map read `m[k]` on an association list with distinct keys. -/
def mapLookup {α : Type} (m : List (String × α)) (k : String) : Option α :=
  match m with
  | [] => none
  | kv :: rest => if kv.1 = k then some kv.2 else mapLookup rest k

/-- Go map write `m[k] = v`: replace the binding if present, else add it. -/
def mapInsert {α : Type} (m : List (String × α)) (k : String) (v : α) :
    List (String × α) :=
  match m with
  | [] => [(k, v)]
  | kv :: rest => if kv.1 = k then (k, v) :: rest else kv :: mapInsert rest k v

/-- `Manager.Render`: look the template up (listing the available names in
the error, as the code interpolates `%v` of the name slice), execute it, and
wrap an execution failure. -/
def Render (m : Manager) (name : String) (data : List (String × TValue)) :
    Except String String :=
  match mapLookup m.templates name with
  | none =>
      .error ("template '" ++ name ++ "' not found. Available templates: [" ++
              String.intercalate " " (m.templates.map (fun kv => kv.1)) ++ "]")
  | some tmpl =>
    match tmpl data with
    | .error e => .error ("failed to render template '" ++ name ++ "': " ++ e)
    | .ok body => .ok body

/-- `urlFields` from `RenderWithSafeURLs`. -/
def urlFields : List String := ["resetUrl", "verifyUrl", "loginUrl", "signupUrl"]

/-- The two map variables live in `RenderWithSafeURLs`: the caller's `data`
map and the local `safeData` copy.  Both are threaded explicitly so that
mutation targets stay visible. -/
structure RWSState where
  data : List (String × GoVal)
  safeData : List (String × TValue)

/-- The `for _, field := range urlFields` loop of `RenderWithSafeURLs`:
read `data[field]`, and when it is a non-empty string, parse it (`p` models
`url.Parse` composed with `URL.String()` normalization) and write the
`template.URL`-marked result into `safeData[field]`.  Returns the error from
the first unparsable field, or the final state. -/
def applyURLFields (p : String → Except String String) :
    List String → RWSState → Option String × RWSState
  | [], st => (none, st)
  | f :: fs, st =>
    match mapLookup st.data f with
    | some (.str s) =>
      if s = "" then applyURLFields p fs st
      else
        match p s with
        | .error e => (some ("invalid " ++ f ++ ": " ++ e), st)
        | .ok u =>
            applyURLFields p fs ⟨st.data, mapInsert st.safeData f (.safeURL u)⟩
    | _ => applyURLFields p fs st

/-- `Manager.RenderWithSafeURLs`: copy `data` into `safeData`, run the URL
loop, then render with `safeData`.  The second component is the caller's
`data` map as the call leaves it. -/
def RenderWithSafeURLs (m : Manager) (name : String)
    (data : List (String × GoVal)) (p : String → Except String String) :
    Except String String × List (String × GoVal) :=
  let st := applyURLFields p urlFields
    ⟨data, data.map (fun kv => (kv.1, TValue.val kv.2))⟩
  match st with
  | (some e, st') => (.error e, st'.data)
  | (none, st') => (Render m name st'.safeData, st'.data)

/-- `ApplicationConfig` from internal/config/config.go. -/
structure ApplicationConfig where
  ServerPort : String
  CacheHost : String
  CachePort : String
  CachePassword : String
  CacheDatabaseIndex : Int
  EmailSMTPServer : String
  EmailSMTPServerPort : Int
  EmailSMTPUsername : String
  EmailSMTPPassword : String
  EmailSenderAddress : String
  EmailSenderDisplayName : String

/-- The `Sender` of internal/senderSide: configuration plus the template
manager. -/
structure Sender where
  config : ApplicationConfig
  templates : Manager

/-- `NewSender`: plain struct construction, no validation, cannot fail. -/
def NewSender (cfg : ApplicationConfig) (tmpl : Manager) : Sender := ⟨cfg, tmpl⟩

/-- Go `strings.TrimSpace`: drop whitespace from both ends
(`Char.isWhitespace` stands in for `unicode.IsSpace`). -/
def trimSpace (s : String) : String :=
  ⟨((s.data.dropWhile Char.isWhitespace).reverse.dropWhile Char.isWhitespace).reverse⟩

/-- `validateSMTPConfig` from internal/senderSide: the five checks in source
order (`strings.TrimSpace` on the string fields, positivity on the port). -/
def validateSMTPConfig (cfg : ApplicationConfig) : Option String :=
  if trimSpace cfg.EmailSMTPServer = "" then some "SMTP server is not configured"
  else if cfg.EmailSMTPServerPort ≤ 0 then some "invalid SMTP server port"
  else if trimSpace cfg.EmailSenderAddress = "" then some "sender email address is not configured"
  else if trimSpace cfg.EmailSMTPUsername = "" then some "SMTP username is not configured"
  else if trimSpace cfg.EmailSMTPPassword = "" then some "SMTP password is not configured"
  else none

/-- The RFC-822 message `SendEmail` assembles before handing it to
`smtp.SendMail`. -/
def emailMessage (cfg : ApplicationConfig) (toAddr subject body : String) : String :=
  "From: " ++ cfg.EmailSenderDisplayName ++ " <" ++ cfg.EmailSenderAddress ++
  ">\r\n" ++ "To: " ++ toAddr ++ "\r\n" ++ "Subject: " ++ subject ++ "\r\n" ++
  "MIME-Version: 1.0\r\n" ++ "Content-Type: text/html; charset=UTF-8\r\n\r\n" ++ body

/-- `Sender.SendEmail` from internal/senderSide: input validation, per-call
SMTP-configuration validation, template rendering, then the network send
(`smtp` is the oracle for `smtp.SendMail`, applied to the assembled
message).  Returns the Go error (`none` = nil). -/
def SendEmail (s : Sender) (toAddr subject templateName : String)
    (data : List (String × GoVal)) (p : String → Except String String)
    (smtp : String → Option String) : Option String :=
  if toAddr = "" then some "recipient email address cannot be empty"
  else if subject = "" then some "email subject cannot be empty"
  else if templateName = "" then some "email template name cannot be empty"
  else
    match validateSMTPConfig s.config with
    | some e => some ("invalid SMTP configuration: " ++ e)
    | none =>
      match (RenderWithSafeURLs s.templates templateName data p).1 with
      | .error e => some ("failed to render email template: " ++ e)
      | .ok body => smtp (emailMessage s.config toAddr subject body)

/-! ## Theorems about the delivery-with-retry policy -/

/-- Claim C1: for a task whose `Retries` count is strictly below the ceiling
of 3, a failed delivery attempt increments the count by exactly 1 and
re-enqueues the updated task through `EnqueueEmail`; when that requeue
succeeds, `sendEmailWithRetry` returns nil to its caller (the pushed payload
is the serialization of the updated task). -/
theorem sendEmailWithRetry_requeues_below_ceiling
    (store : List Json) (tsk : EmailTask) (err : String) (rpushErr : Option String)
    (h : tsk.Retries < maxRetries)
    (hr : (EnqueueEmail store { tsk with Retries := tsk.Retries + 1 } rpushErr).ret = none) :
    sendEmailWithRetry store tsk (some err) rpushErr =
      ⟨none, store ++ [marshalTask { tsk with Retries := tsk.Retries + 1 }],
       [.warnRequeue tsk.To tsk.Subject (tsk.Retries + 1) err,
        .infoEnqueued tsk.To tsk.Subject]⟩ := by
  cases hval : validateEmailTask { tsk with Retries := tsk.Retries + 1 } with
  | some e => simp [EnqueueEmail, hval] at hr
  | none =>
    cases rpushErr with
    | some e => simp [EnqueueEmail, hval] at hr
    | none => simp [sendEmailWithRetry, EnqueueEmail, hval, h]

/-- Witness for C1 at a concrete task with `Retries = 0` and a succeeding
requeue. -/
theorem sendEmailWithRetry_requeues_below_ceiling_witness :
    sendEmailWithRetry [] ⟨"a@x.com", "S", "T", [], 0⟩ (some "boom") none =
      ⟨none, [marshalTask ⟨"a@x.com", "S", "T", [], 1⟩],
       [.warnRequeue "a@x.com" "S" 1 "boom", .infoEnqueued "a@x.com" "S"]⟩ := by
  have h := sendEmailWithRetry_requeues_below_ceiling []
    ⟨"a@x.com", "S", "T", [], 0⟩ "boom" none (by decide) (by decide)
  simpa using h

/-- Claim C2: for a task whose `Retries` count already equals the ceiling of
3, a failed delivery attempt performs no requeue (the store is unchanged),
logs exactly one terminal error-severity failure naming recipient, subject
and the final error, and returns the delivery failure to the caller. -/
theorem sendEmailWithRetry_terminal_at_ceiling
    (store : List Json) (tsk : EmailTask) (err : String) (rpushErr : Option String)
    (h : tsk.Retries = maxRetries) :
    sendEmailWithRetry store tsk (some err) rpushErr =
      ⟨some err, store, [.errorMaxRetries tsk.To tsk.Subject err]⟩ := by
  simp [sendEmailWithRetry, h]

/-- Witness for C2 at a concrete task with `Retries = 3`. -/
theorem sendEmailWithRetry_terminal_at_ceiling_witness :
    sendEmailWithRetry [] ⟨"a@x.com", "S", "T", [], 3⟩ (some "boom") none =
      ⟨some "boom", [], [.errorMaxRetries "a@x.com" "S" "boom"]⟩ :=
  sendEmailWithRetry_terminal_at_ceiling [] ⟨"a@x.com", "S", "T", [], 3⟩
    "boom" none (by decide)

/-- Claim C6: for a task below the retry ceiling whose delivery fails and
whose requeue also fails, `sendEmailWithRetry` returns a single compound
error naming both the requeue failure and the original delivery failure. -/
theorem sendEmailWithRetry_compound_error_on_requeue_failure
    (store : List Json) (tsk : EmailTask) (err re : String) (rpushErr : Option String)
    (h : tsk.Retries < maxRetries)
    (hr : (EnqueueEmail store { tsk with Retries := tsk.Retries + 1 } rpushErr).ret = some re) :
    (sendEmailWithRetry store tsk (some err) rpushErr).ret =
      some ("failed to requeue email: " ++ re ++ " (original error: " ++ err ++ ")") := by
  cases hq : EnqueueEmail store { tsk with Retries := tsk.Retries + 1 } rpushErr with
  | mk retv st lg =>
    rw [hq] at hr
    simp only at hr
    subst hr
    simp [sendEmailWithRetry, h, hq]

/-- Witness for C6 at a concrete task whose requeue is refused by the
store. -/
theorem sendEmailWithRetry_compound_error_on_requeue_failure_witness :
    (sendEmailWithRetry [] ⟨"a@x.com", "S", "T", [], 0⟩ (some "boom")
        (some "connection refused")).ret =
      some ("failed to requeue email: " ++
            "failed to enqueue email task: connection refused" ++
            " (original error: " ++ "boom" ++ ")") :=
  sendEmailWithRetry_compound_error_on_requeue_failure []
    ⟨"a@x.com", "S", "T", [], 0⟩ "boom"
    "failed to enqueue email task: connection refused"
    (some "connection refused") (by decide) (by decide)

/-- Claim C9: a task whose `Retries` field is 3 or more on entry (values
above 3 can arrive from arbitrary wire payloads) is never requeued by
`sendEmailWithRetry`, and consequently every payload the call adds to the
store serializes a task whose `Retries` is at most 3. -/
theorem sendEmailWithRetry_requeue_retries_bounded
    (store : List Json) (tsk : EmailTask) (sendErr rpushErr : Option String) :
    (maxRetries ≤ tsk.Retries →
        (sendEmailWithRetry store tsk sendErr rpushErr).store = store) ∧
    (∀ j ∈ (sendEmailWithRetry store tsk sendErr rpushErr).store,
        j ∈ store ∨ ∃ t : EmailTask, j = marshalTask t ∧ t.Retries ≤ maxRetries) := by
  cases sendErr with
  | none =>
    exact ⟨fun _ => rfl, fun j hj => Or.inl hj⟩
  | some err =>
    by_cases h : tsk.Retries < maxRetries
    · refine ⟨fun hge => by omega, ?_⟩
      intro j hj
      cases hval : validateEmailTask { tsk with Retries := tsk.Retries + 1 } with
      | some e =>
        simp [sendEmailWithRetry, EnqueueEmail, h, hval] at hj
        exact Or.inl hj
      | none =>
        cases rpushErr with
        | some e =>
          simp [sendEmailWithRetry, EnqueueEmail, h, hval] at hj
          exact Or.inl hj
        | none =>
          simp [sendEmailWithRetry, EnqueueEmail, h, hval] at hj
          rcases hj with hj | hj
          · exact Or.inl hj
          · exact Or.inr ⟨{ tsk with Retries := tsk.Retries + 1 }, hj, by simp; omega⟩
    · constructor
      · intro _
        simp [sendEmailWithRetry, h]
      · intro j hj
        simp [sendEmailWithRetry, h] at hj
        exact Or.inl hj

/-- Witness for C9: a task that arrives with `Retries = 5` is dropped
without touching the store. -/
theorem sendEmailWithRetry_requeue_retries_bounded_witness :
    (sendEmailWithRetry [] ⟨"a@x.com", "S", "T", [], 5⟩ (some "boom") none).store = [] :=
  (sendEmailWithRetry_requeue_retries_bounded []
    ⟨"a@x.com", "S", "T", [], 5⟩ (some "boom") none).1 (by decide)

/-! ## Theorems about the enqueue operation -/

/-- Claim C4: a task with an empty recipient, subject or template name is
rejected by `EnqueueEmail` with the validation error, and the store is left
exactly as it was (nothing appended, nothing logged). -/
theorem EnqueueEmail_rejects_empty_fields
    (store : List Json) (tsk : EmailTask) (rpushErr : Option String)
    (h : tsk.To = "" ∨ tsk.Subject = "" ∨ tsk.TemplateName = "") :
    ∃ e, validateEmailTask tsk = some e ∧
      EnqueueEmail store tsk rpushErr = ⟨some ("invalid email task: " ++ e), store, []⟩ := by
  have hv : ∃ e, validateEmailTask tsk = some e := by
    unfold validateEmailTask
    rcases h with h | h | h
    · simp [h]
    · by_cases h1 : tsk.To = "" <;> simp [h, h1]
    · by_cases h1 : tsk.To = "" <;> by_cases h2 : tsk.Subject = "" <;> simp [h, h1, h2]
  obtain ⟨e, he⟩ := hv
  exact ⟨e, he, by simp [EnqueueEmail, he]⟩

/-- Witness for C4 at a task with an empty recipient. -/
theorem EnqueueEmail_rejects_empty_fields_witness :
    ∃ e, validateEmailTask ⟨"", "S", "T", [], 0⟩ = some e ∧
      EnqueueEmail [] ⟨"", "S", "T", [], 0⟩ none =
        ⟨some ("invalid email task: " ++ e), [], []⟩ :=
  EnqueueEmail_rejects_empty_fields [] ⟨"", "S", "T", [], 0⟩ none (Or.inl rfl)

/-! ## Theorems about float64 rounding -/

theorem pow2_pos (e : Int) : 0 < pow2 e := zpow_pos (by norm_num) e

theorem pow2_add (a b : Int) : pow2 (a + b) = pow2 a * pow2 b :=
  zpow_add₀ (by norm_num) a b

theorem pow2_lt_pow2_iff {a b : Int} : pow2 a < pow2 b ↔ a < b :=
  zpow_lt_zpow_iff_right₀ (by norm_num)

theorem pow2_le_pow2_iff {a b : Int} : pow2 a ≤ pow2 b ↔ a ≤ b :=
  zpow_le_zpow_iff_right₀ (by norm_num)

theorem pow2_natCast (n : Nat) : pow2 (n : Int) = (2:ℚ) ^ n := zpow_natCast 2 n

theorem pow2_sub (a b : Int) : pow2 (a - b) = pow2 a / pow2 b :=
  zpow_sub₀ (by norm_num) a b

/-- `floorLog2` brackets its positive argument between consecutive powers
of two. -/
theorem floorLog2_spec (x : ℚ) (hx : 0 < x) :
    pow2 (floorLog2 x) ≤ x ∧ x < pow2 (floorLog2 x + 1) := by
  have hnum : 0 < x.num := Rat.num_pos.mpr hx
  have hden : (0:ℚ) < (x.den : ℚ) := by exact_mod_cast x.den_pos
  have hxa : ((x.num.toNat : ℕ) : ℚ) = (x.num : ℚ) := by
    exact_mod_cast Int.toNat_of_nonneg hnum.le
  have ha0 : x.num.toNat ≠ 0 := by omega
  have hx_eq : x = ((x.num.toNat : ℕ) : ℚ) / ((x.den : ℕ) : ℚ) := by
    rw [hxa, Rat.num_div_den]
  set a : ℕ := x.num.toNat with ha
  set b : ℕ := x.den with hb
  set La : ℕ := Nat.log 2 a with hLa
  set Lb : ℕ := Nat.log 2 b with hLb
  have h1 : ((2:ℚ)) ^ La ≤ (a : ℚ) := by exact_mod_cast Nat.pow_log_le_self 2 ha0
  have h2 : (a : ℚ) < 2 ^ (La + 1) := by
    exact_mod_cast Nat.lt_pow_succ_log_self (by norm_num) a
  have h3 : ((2:ℚ)) ^ Lb ≤ (b : ℚ) := by
    exact_mod_cast Nat.pow_log_le_self 2 x.den_nz
  have h4 : (b : ℚ) < 2 ^ (Lb + 1) := by
    exact_mod_cast Nat.lt_pow_succ_log_self (by norm_num) b
  set e0 : Int := (La : Int) - (Lb : Int) with he0
  have hup : x < pow2 (e0 + 1) := by
    rw [hx_eq, div_lt_iff₀ hden]
    calc (a : ℚ) < 2 ^ (La + 1) := h2
      _ = pow2 ((La : Int) + 1) := by
          rw [show ((La : Int) + 1) = ((La + 1 : ℕ) : Int) by push_cast; ring, pow2_natCast]
      _ = pow2 (e0 + 1) * pow2 (Lb : Int) := by
          rw [← pow2_add]; ring_nf
      _ ≤ pow2 (e0 + 1) * (b : ℚ) := by
          apply mul_le_mul_of_nonneg_left _ (pow2_pos _).le
          rw [pow2_natCast]; exact h3
  have hlow : pow2 (e0 - 1) < x := by
    rw [hx_eq, lt_div_iff₀ hden]
    calc pow2 (e0 - 1) * (b : ℚ) < pow2 (e0 - 1) * pow2 ((Lb : Int) + 1) := by
          apply mul_lt_mul_of_pos_left _ (pow2_pos _)
          rw [show ((Lb : Int) + 1) = ((Lb + 1 : ℕ) : Int) by push_cast; ring, pow2_natCast]
          exact h4
      _ = pow2 (La : Int) := by rw [← pow2_add]; ring_nf
      _ ≤ (a : ℚ) := by rw [pow2_natCast]; exact h1
  have hfl : floorLog2 x = if pow2 e0 ≤ x then e0 else e0 - 1 := rfl
  rw [hfl]
  by_cases hc : pow2 e0 ≤ x
  · rw [if_pos hc]
    exact ⟨hc, hup⟩
  · rw [if_neg hc]
    refine ⟨hlow.le, ?_⟩
    rw [show e0 - 1 + 1 = e0 by ring]
    exact lt_of_not_le hc

theorem floorLog2_unique (x : ℚ) (E : Int) (h1 : pow2 E ≤ x) (h2 : x < pow2 (E + 1)) :
    floorLog2 x = E := by
  have hx : 0 < x := lt_of_lt_of_le (pow2_pos E) h1
  obtain ⟨hl, hu⟩ := floorLog2_spec x hx
  by_contra hne
  rcases lt_or_gt_of_ne hne with hlt | hgt
  · have hle : pow2 (floorLog2 x + 1) ≤ pow2 E := pow2_le_pow2_iff.mpr (by omega)
    exact absurd (lt_of_lt_of_le hu (le_trans hle h1)) (lt_irrefl x)
  · have hle : pow2 (E + 1) ≤ pow2 (floorLog2 x) := pow2_le_pow2_iff.mpr (by omega)
    exact absurd (lt_of_lt_of_le h2 (le_trans hle hl)) (lt_irrefl x)

theorem rndInt_intCast (n : Int) : rndInt ((n : Int) : ℚ) = n := by
  rw [rndInt, Int.floor_intCast]
  norm_num

/-- Rounding is the identity on every value a finite double can hold:
`q = m * 2 ^ e` with `|m| < 2 ^ 53` is returned unchanged. -/
theorem roundFloat64_eq_self {q : ℚ} (h : isFloat64 q) : roundFloat64 q = q := by
  obtain ⟨m, e, hm, he, _, rfl⟩ := h
  by_cases h0 : (m : ℚ) * pow2 e = 0
  · rw [roundFloat64, if_pos h0, h0]
  · rw [roundFloat64, if_neg h0]
    have hm0 : (m : ℚ) ≠ 0 := by
      intro hc
      exact h0 (by rw [hc, zero_mul])
    have habs : |(m : ℚ) * pow2 e| = |(m : ℚ)| * pow2 e := by
      rw [abs_mul, abs_of_pos (pow2_pos e)]
    have hq0 : 0 < |(m : ℚ)| * pow2 e :=
      mul_pos (abs_pos.mpr hm0) (pow2_pos e)
    have hEe : floorLog2 |(m : ℚ) * pow2 e| - 52 ≤ e := by
      have hspec := (floorLog2_spec (|(m : ℚ)| * pow2 e) hq0).1
      have hmq : |(m : ℚ)| < pow2 53 := by
        rw [show (53 : Int) = ((53 : ℕ) : Int) by norm_num, pow2_natCast]
        calc |(m : ℚ)| = ((|m| : Int) : ℚ) := by push_cast; ring
          _ < ((2 ^ 53 : Int) : ℚ) := by exact_mod_cast hm
          _ = (2:ℚ) ^ (53:ℕ) := by push_cast; ring
      have hlt : |(m : ℚ)| * pow2 e < pow2 (53 + e) := by
        rw [pow2_add]
        exact mul_lt_mul_of_pos_right hmq (pow2_pos e)
      have hpow := lt_of_le_of_lt hspec hlt
      rw [habs]
      have hElt := pow2_lt_pow2_iff.mp hpow
      omega
    have hscale : max (floorLog2 |(m : ℚ) * pow2 e| - 52) (-1074) ≤ e := max_le hEe he
    set scale : Int := max (floorLog2 |(m : ℚ) * pow2 e| - 52) (-1074) with hsc
    have hk : ((e - scale).toNat : Int) = e - scale := Int.toNat_of_nonneg (by omega)
    have hdiv : (m : ℚ) * pow2 e / pow2 scale = ((m * 2 ^ (e - scale).toNat : Int) : ℚ) := by
      rw [mul_div_assoc, ← pow2_sub]
      push_cast
      rw [show ((2:ℚ) ^ (e - scale).toNat) = pow2 (((e - scale).toNat : Int)) from
            (pow2_natCast _).symm, hk]
    rw [hdiv, rndInt_intCast]
    push_cast
    rw [mul_assoc,
      show ((2:ℚ) ^ (e - scale).toNat) = pow2 (((e - scale).toNat : Int)) from
        (pow2_natCast _).symm, hk, ← pow2_add]
    ring_nf

/-- Integers of magnitude at most `2 ^ 53` survive the float64 rounding
exactly. -/
theorem roundFloat64_intCast_of_abs_le (n : Int) (h : |n| ≤ 2 ^ 53) :
    roundFloat64 ((n : Int) : ℚ) = ((n : Int) : ℚ) := by
  rcases lt_or_eq_of_le h with hlt | heq
  · apply roundFloat64_eq_self
    exact ⟨n, 0, hlt, by norm_num, by norm_num, by rw [pow2]; norm_num⟩
  · apply roundFloat64_eq_self
    have habs : n = 2 ^ 53 ∨ n = -(2 ^ 53) :=
      (abs_eq (by positivity : (0:Int) ≤ 2 ^ 53)).mp heq
    rcases habs with rfl | rfl
    · refine ⟨2 ^ 52, 1, by norm_num, by norm_num, by norm_num, ?_⟩
      rw [show pow2 1 = 2 by rw [pow2]; norm_num]
      push_cast
      ring
    · refine ⟨-(2 ^ 52), 1, by norm_num, by norm_num, by norm_num, ?_⟩
      rw [show pow2 1 = 2 by rw [pow2]; norm_num]
      push_cast
      ring

/-- `2 ^ 53 + 1` is the first positive integer the rounding moves: the tie
at significand bit 53 resolves to the even neighbour `2 ^ 53`. -/
theorem roundFloat64_pow53_succ :
    roundFloat64 (((2 ^ 53 + 1 : Int) : ℚ)) = ((2 ^ 53 : Int) : ℚ) := by
  have hq0 : ((2 ^ 53 + 1 : Int) : ℚ) ≠ 0 := by positivity
  rw [roundFloat64, if_neg hq0]
  have habs : |((2 ^ 53 + 1 : Int) : ℚ)| = ((2 ^ 53 + 1 : Int) : ℚ) := by
    apply abs_of_pos; positivity
  have hE : floorLog2 |((2 ^ 53 + 1 : Int) : ℚ)| = 53 := by
    rw [habs]
    apply floorLog2_unique
    · rw [show (53 : Int) = ((53 : ℕ) : Int) by norm_num, pow2_natCast]
      push_cast
      norm_num
    · rw [show (53 + 1 : Int) = ((54 : ℕ) : Int) by norm_num, pow2_natCast]
      push_cast
      norm_num
  rw [hE]
  have hsc : max ((53 : Int) - 52) (-1074) = 1 := by norm_num
  rw [hsc]
  have hp1 : pow2 1 = 2 := by rw [pow2]; norm_num
  rw [hp1]
  have hfloor : ⌊((2 ^ 53 + 1 : Int) : ℚ) / 2⌋ = 2 ^ 52 := by
    rw [Int.floor_eq_iff]
    constructor
    · push_cast; norm_num
    · push_cast; norm_num
  have hfr : ((2 ^ 53 + 1 : Int) : ℚ) / 2 - ((2 ^ 52 : Int) : ℚ) = 1 / 2 := by
    push_cast
    ring_nf
  have hr : rndInt (((2 ^ 53 + 1 : Int) : ℚ) / 2) = 2 ^ 52 := by
    rw [rndInt, hfloor]
    push_cast at hfr ⊢
    rw [hfr]
    norm_num
  rw [hr]
  push_cast
  ring_nf

/-! ## Theorems about the wire encoding round trip -/

/-- Round trip of a data-value association list through the encoding:
pointwise `decodeVal` on the values, keys untouched. -/
theorem jsonFields_goValFields_roundtrip (fs : List (String × GoVal)) :
    jsonFieldsToGoVal (goValFieldsToJson fs) =
      fs.map (fun kv => (kv.1, decodeVal kv.2)) := by
  induction fs with
  | nil => rfl
  | cons kv rest ih => simp [goValFieldsToJson, jsonFieldsToGoVal, decodeVal, ih]

/-- A well-formed task holding the integer data value 5. -/
def intDataTask : EmailTask := ⟨"a@x.com", "S", "T", [("n", GoVal.int 5)], 0⟩

/-- Claim C3 counterexample: serializing `intDataTask` and deserializing the
payload does not return the task unchanged — the integer data value 5 comes
back as a float, because the decoder reads every JSON number in a
`map[string]interface{}` as a `float64`. -/
theorem marshal_roundtrip_not_exact :
    unmarshalTask (marshalTask intDataTask) ≠ Except.ok intDataTask := by
  have h : unmarshalTask (marshalTask intDataTask) =
      Except.ok ⟨"a@x.com", "S", "T",
        [("n", GoVal.float (roundFloat64 ((5 : Int) : ℚ)))], 0⟩ := rfl
  rw [h]
  intro hc
  simp [intDataTask] at hc

/-- Claim C3 (amended): serializing any task and deserializing the popped
payload preserves recipient, subject, template name, the data keys and the
`Retries` count exactly, and sends each data value through JSON number
decoding: string and boolean values come back exactly; a float64 value
comes back exactly; an integer value comes back as a float holding the
integer rounded to the nearest binary64 — exactly value-preserving up to
magnitude `2 ^ 53`, while larger integers can lose precision
(`2 ^ 53 + 1` returns as the float `2 ^ 53`). -/
theorem marshal_roundtrip_up_to_number_decoding (t : EmailTask) :
    unmarshalTask (marshalTask t) =
      Except.ok ⟨t.To, t.Subject, t.TemplateName,
                 t.Data.map (fun kv => (kv.1, decodeVal kv.2)), t.Retries⟩ ∧
    (∀ s, decodeVal (.str s) = .str s) ∧
    (∀ b, decodeVal (.bool b) = .bool b) ∧
    (∀ q, isFloat64 q → decodeVal (.float q) = .float q) ∧
    (∀ n : Int, decodeVal (.int n) = .float (roundFloat64 ((n : Int) : ℚ))) ∧
    (∀ n : Int, |n| ≤ 2 ^ 53 → decodeVal (.int n) = .float ((n : Int) : ℚ)) ∧
    decodeVal (.int (2 ^ 53 + 1)) = .float ((2 ^ 53 : Int) : ℚ) := by
  refine ⟨?_, fun s => rfl, fun b => rfl, ?_, fun n => rfl, ?_, ?_⟩
  case refine_2 =>
    intro q hq
    show GoVal.float (roundFloat64 q) = GoVal.float q
    rw [roundFloat64_eq_self hq]
  case refine_3 =>
    intro n hn
    show GoVal.float (roundFloat64 ((n : Int) : ℚ)) = GoVal.float ((n : Int) : ℚ)
    rw [roundFloat64_intCast_of_abs_le n hn]
  case refine_4 =>
    show GoVal.float (roundFloat64 (((2 ^ 53 + 1 : Int)) : ℚ)) = _
    rw [roundFloat64_pow53_succ]
  obtain ⟨toA, subj, tn, data, r⟩ := t
  by_cases h0 : r = 0
  · subst h0
    rw [show unmarshalTask (marshalTask ⟨toA, subj, tn, data, 0⟩) =
        Except.ok ⟨toA, subj, tn, jsonFieldsToGoVal (goValFieldsToJson data), 0⟩ from rfl]
    rw [jsonFields_goValFields_roundtrip]
  · have h1 : unmarshalTask (marshalTask ⟨toA, subj, tn, data, r⟩) =
        Except.ok ⟨toA, subj, tn, jsonFieldsToGoVal (goValFieldsToJson data), r⟩ := by
      simp [marshalTask, unmarshalTask, h0, getField, decodeStringField,
        decodeDataField, decodeIntField, Rat.den_intCast, Rat.num_intCast]
      rfl
    rw [h1, jsonFields_goValFields_roundtrip]

/-- Witness for C3 (amended): the double `3/2` and the small integer 5
survive the round trip of a data value exactly. -/
theorem marshal_roundtrip_up_to_number_decoding_witness :
    decodeVal (.float ((3 : ℚ) / 2)) = .float ((3 : ℚ) / 2) ∧
    decodeVal (.int 5) = .float (((5 : Int)) : ℚ) := by
  constructor
  · exact (marshal_roundtrip_up_to_number_decoding ⟨"a@x.com", "S", "T", [], 0⟩).2.2.2.1
      ((3 : ℚ) / 2)
      ⟨3, -1, by norm_num, by norm_num, by norm_num,
       by rw [show pow2 (-1) = 1 / 2 by rw [pow2]; norm_num]; norm_num⟩
  · exact (marshal_roundtrip_up_to_number_decoding ⟨"a@x.com", "S", "T", [], 0⟩).2.2.2.2.2.1
      5 (by norm_num)

/-! ## Theorems about the worker loop -/

/-- Claim C5: a popped payload that fails to deserialize makes the iteration
return a reported error while leaving the (already popped-from) store
untouched — the malformed item is dropped, not requeued — and the loop's
stopped flag is driven only by the cancellation signal: any trace of
iteration events free of `cancel` leaves it unchanged, while a trace headed
by `cancel` stops the loop. -/
theorem worker_loop_survives_all_iteration_outcomes :
    (∀ (store : List Json) (j : Json) (e : String) (se re : Option String),
        unmarshalTask j = .error e →
        processNextTask store (.popped j) se re =
          ⟨some ("task deserialization error: " ++ e), store, []⟩) ∧
    (∀ (s : WState) (evs : List WorkerEvent),
        (∀ ev ∈ evs, ev ≠ WorkerEvent.cancel) →
        (runWorker s evs).stopped = s.stopped) ∧
    (∀ (s : WState) (evs : List WorkerEvent),
        (runWorker s (WorkerEvent.cancel :: evs)).stopped = true) := by
  refine ⟨?_, ?_, fun s evs => rfl⟩
  · intro store j e se re hj
    simp [processNextTask, hj]
  · intro s evs
    induction evs generalizing s with
    | nil => intro _; rfl
    | cons ev rest ih =>
      intro hne
      cases ev with
      | cancel => exact absurd rfl (hne _ (List.mem_cons_self _ _))
      | iter pop se re =>
        simp only [runWorker]
        exact ih _ (fun g hg => hne g (List.mem_cons_of_mem _ hg))

/-- Witness for C5: a payload that is a bare JSON number fails to
deserialize, the iteration reports it and drops it, and a one-iteration
trace without cancellation leaves the worker running. -/
theorem worker_loop_survives_all_iteration_outcomes_witness :
    processNextTask [] (.popped (Json.num 3)) none none =
      ⟨some ("task deserialization error: " ++
             "cannot unmarshal non-object into EmailTask"), [], []⟩ ∧
    (runWorker ⟨[], [], false⟩ [.iter (.popped (Json.num 3)) none none]).stopped = false := by
  constructor
  · exact worker_loop_survives_all_iteration_outcomes.1 [] (Json.num 3) _ none none rfl
  · exact worker_loop_survives_all_iteration_outcomes.2.1 ⟨[], [], false⟩ _
      (by intro ev hev; simp at hev; subst hev; simp)

/-! ## Theorems about the template renderer -/

theorem mapLookup_mapInsert_self {α : Type} (m : List (String × α)) (k : String) (v : α) :
    mapLookup (mapInsert m k v) k = some v := by
  induction m with
  | nil => simp [mapInsert, mapLookup]
  | cons kv rest ih =>
    by_cases h : kv.1 = k
    · simp [mapInsert, mapLookup, h]
    · simp [mapInsert, mapLookup, h, ih]

theorem mapLookup_mapInsert_ne {α : Type} (m : List (String × α)) (k k' : String)
    (v : α) (h : k' ≠ k) :
    mapLookup (mapInsert m k v) k' = mapLookup m k' := by
  induction m with
  | nil => simp [mapInsert, mapLookup, h, Ne.symm h]
  | cons kv rest ih =>
    by_cases h1 : kv.1 = k
    · subst h1
      simp [mapInsert, mapLookup, h, Ne.symm h]
    · simp [mapInsert, mapLookup, h1, ih]

/-- Reading the fresh `safeData` copy is reading `data`, value-wrapped. -/
theorem mapLookup_liftData (data : List (String × GoVal)) (k : String) :
    mapLookup (data.map (fun kv => (kv.1, TValue.val kv.2))) k =
      (mapLookup data k).map TValue.val := by
  induction data with
  | nil => rfl
  | cons kv rest ih => by_cases h : kv.1 = k <;> simp [mapLookup, h, ih]

/-- The URL loop only ever writes into `safeData`: the `data` component of
the state it returns is the one it was given, on every path. -/
theorem applyURLFields_preserves_data (p : String → Except String String)
    (fs : List String) (st : RWSState) :
    ((applyURLFields p fs st).2).data = st.data := by
  induction fs generalizing st with
  | nil => rfl
  | cons f rest ih =>
    cases hl : mapLookup st.data f with
    | none => simp [applyURLFields, hl, ih]
    | some v =>
      cases v with
      | str s =>
        by_cases hs : s = ""
        · simp [applyURLFields, hl, hs, ih]
        · cases hp : p s with
          | error e => simp [applyURLFields, hl, hs, hp]
          | ok u => simp [applyURLFields, hl, hs, hp, ih]
      | int n => simp [applyURLFields, hl, ih]
      | float q => simp [applyURLFields, hl, ih]
      | bool b => simp [applyURLFields, hl, ih]
      | null => simp [applyURLFields, hl, ih]
      | arr xs => simp [applyURLFields, hl, ih]
      | obj gs => simp [applyURLFields, hl, ih]

/-- Claim C10: `RenderWithSafeURLs` leaves the caller's `data` map exactly
as it was, whether the call returns a body or an error — the safe-URL
substitution happens only on the internal copy. -/
theorem renderWithSafeURLs_preserves_caller_data
    (m : Manager) (name : String) (data : List (String × GoVal))
    (p : String → Except String String) :
    (RenderWithSafeURLs m name data p).2 = data := by
  unfold RenderWithSafeURLs
  cases hA : applyURLFields p urlFields
      ⟨data, data.map (fun kv => (kv.1, TValue.val kv.2))⟩ with
  | mk o st' =>
    have hd : st'.data = data := by
      have h := applyURLFields_preserves_data p urlFields
        ⟨data, data.map (fun kv => (kv.1, TValue.val kv.2))⟩
      rw [hA] at h
      exact h
    cases o <;> simp [hd]

/-- A data value at key `f` on which the URL loop will abort: a non-empty
string value that `url.Parse` rejects. -/
def failsURLParse (data : List (String × GoVal)) (p : String → Except String String)
    (f : String) : Prop :=
  ∃ s, mapLookup data f = some (.str s) ∧ s ≠ "" ∧ ∃ e, p s = .error e

/-- The value the URL loop leaves at key `k` of `safeData`, in terms of the
value `cur` the copy held there: a non-empty string value whose parse
succeeds is replaced by its safe-URL marking, everything else stays. -/
def substURL (data : List (String × GoVal)) (p : String → Except String String)
    (k : String) (cur : Option TValue) : Option TValue :=
  match mapLookup data k with
  | some (.str s) =>
    if s = "" then cur
    else
      match p s with
      | .ok u => some (.safeURL u)
      | .error _ => cur
  | _ => cur

theorem substURL_id_of_skip (data : List (String × GoVal))
    (p : String → Except String String) (f : String)
    (h : ∀ s, mapLookup data f = some (GoVal.str s) → s = "") :
    ∀ cur, substURL data p f cur = cur := by
  intro cur
  unfold substURL
  cases hl : mapLookup data f with
  | none => rfl
  | some v =>
    cases v with
    | str s => simp [h s hl]
    | int n => rfl
    | float q => rfl
    | bool b => rfl
    | null => rfl
    | arr xs => rfl
    | obj gs => rfl

/-- A loop step at a field whose `data` value is not a non-empty string is
a no-op. -/
theorem applyURLFields_cons_skip (p : String → Except String String) (f : String)
    (fs : List String) (st : RWSState)
    (h : ∀ s, mapLookup st.data f = some (GoVal.str s) → s = "") :
    applyURLFields p (f :: fs) st = applyURLFields p fs st := by
  cases hl : mapLookup st.data f with
  | none => simp [applyURLFields, hl]
  | some v =>
    cases v with
    | str s => simp [applyURLFields, hl, h s hl]
    | int n => simp [applyURLFields, hl]
    | float q => simp [applyURLFields, hl]
    | bool b => simp [applyURLFields, hl]
    | null => simp [applyURLFields, hl]
    | arr xs => simp [applyURLFields, hl]
    | obj gs => simp [applyURLFields, hl]

/-- When some field in the list carries an unparsable non-empty string, the
URL loop returns an error. -/
theorem applyURLFields_error_of_fails (p : String → Except String String)
    (data : List (String × GoVal)) :
    ∀ (fs : List String) (sd : List (String × TValue)),
      (∃ f ∈ fs, failsURLParse data p f) →
      ∃ msg st', applyURLFields p fs ⟨data, sd⟩ = (some msg, st') := by
  intro fs
  induction fs with
  | nil =>
    intro sd h
    simp at h
  | cons f rest ih =>
    intro sd hbad
    by_cases hfail : failsURLParse data p f
    · obtain ⟨s, hs, hne, e, hp⟩ := hfail
      exact ⟨"invalid " ++ f ++ ": " ++ e, ⟨data, sd⟩,
        by simp [applyURLFields, hs, hne, hp]⟩
    · have hbr : ∃ g ∈ rest, failsURLParse data p g := by
        obtain ⟨g, hg, hgf⟩ := hbad
        rcases List.mem_cons.mp hg with h | h
        · subst h; exact absurd hgf hfail
        · exact ⟨g, h, hgf⟩
      by_cases hsub : ∃ s u, mapLookup data f = some (.str s) ∧ s ≠ "" ∧ p s = .ok u
      · obtain ⟨s, u, hs, hne, hp⟩ := hsub
        have hstep : applyURLFields p (f :: rest) ⟨data, sd⟩ =
            applyURLFields p rest ⟨data, mapInsert sd f (TValue.safeURL u)⟩ := by
          simp [applyURLFields, hs, hne, hp]
        rw [hstep]
        exact ih _ hbr
      · have hskip : ∀ s, mapLookup data f = some (GoVal.str s) → s = "" := by
          intro s hs
          by_contra hne
          cases hp : p s with
          | ok u => exact hsub ⟨s, u, hs, hne, hp⟩
          | error e => exact hfail ⟨s, hs, hne, e, hp⟩
        rw [applyURLFields_cons_skip p f rest ⟨data, sd⟩ hskip]
        exact ih sd hbr

/-- When no field in the (duplicate-free) list fails to parse, the URL loop
succeeds and the resulting `safeData` reads as the input copy with
`substURL` applied at exactly the listed fields. -/
theorem applyURLFields_ok_lookup (p : String → Except String String)
    (data : List (String × GoVal)) :
    ∀ (fs : List String), fs.Nodup →
      ∀ (sd : List (String × TValue)),
        (∀ f ∈ fs, ¬ failsURLParse data p f) →
        ∃ sd', applyURLFields p fs ⟨data, sd⟩ = (none, ⟨data, sd'⟩) ∧
          ∀ k, mapLookup sd' k =
            if k ∈ fs then substURL data p k (mapLookup sd k) else mapLookup sd k := by
  intro fs
  induction fs with
  | nil =>
    intro _ sd _
    exact ⟨sd, rfl, by simp⟩
  | cons f rest ih =>
    intro hnd sd hgood
    have hf : f ∉ rest := (List.nodup_cons.mp hnd).1
    have hndr : rest.Nodup := (List.nodup_cons.mp hnd).2
    have hgr : ∀ g ∈ rest, ¬ failsURLParse data p g :=
      fun g hg => hgood g (List.mem_cons_of_mem _ hg)
    by_cases hsub : ∃ s u, mapLookup data f = some (.str s) ∧ s ≠ "" ∧ p s = .ok u
    · obtain ⟨s, u, hs, hne, hp⟩ := hsub
      have hstep : applyURLFields p (f :: rest) ⟨data, sd⟩ =
          applyURLFields p rest ⟨data, mapInsert sd f (TValue.safeURL u)⟩ := by
        simp [applyURLFields, hs, hne, hp]
      obtain ⟨sd', hA, hk⟩ := ih hndr (mapInsert sd f (TValue.safeURL u)) hgr
      refine ⟨sd', by rw [hstep, hA], fun k => ?_⟩
      rw [hk k]
      by_cases hkf : k = f
      · subst hkf
        simp [hf, List.mem_cons, mapLookup_mapInsert_self, substURL, hs, hne, hp]
      · rw [mapLookup_mapInsert_ne sd f k _ hkf]
        simp [List.mem_cons, hkf]
    · have hskip : ∀ s, mapLookup data f = some (GoVal.str s) → s = "" := by
        intro s hs
        by_contra hne
        cases hp : p s with
        | ok u => exact hsub ⟨s, u, hs, hne, hp⟩
        | error e =>
          exact hgood f (List.mem_cons_self _ _) ⟨s, hs, hne, e, hp⟩
      rw [applyURLFields_cons_skip p f rest ⟨data, sd⟩ hskip]
      obtain ⟨sd', hA, hk⟩ := ih hndr sd hgr
      refine ⟨sd', hA, fun k => ?_⟩
      rw [hk k]
      by_cases hkf : k = f
      · subst hkf
        simp [hf, List.mem_cons, substURL_id_of_skip data p k hskip]
      · simp [List.mem_cons, hkf]

/-- Claim C8: in `RenderWithSafeURLs`, every data field among the known
URL-bearing keys (`resetUrl`, `verifyUrl`, `loginUrl`, `signupUrl`) whose
value is a non-empty string is parsed and re-emitted through the safe-URL
marker in the map handed to `Render`; if any such value fails to parse, the
call returns an error and no body. -/
theorem renderWithSafeURLs_url_field_handling
    (m : Manager) (name : String) (data : List (String × GoVal))
    (p : String → Except String String) :
    ((∃ f ∈ urlFields, failsURLParse data p f) →
        ∃ msg, (RenderWithSafeURLs m name data p).1 = Except.error msg) ∧
    ((∀ f ∈ urlFields, ¬ failsURLParse data p f) →
        ∃ sd, (RenderWithSafeURLs m name data p).1 = Render m name sd ∧
          ∀ k, mapLookup sd k =
            if k ∈ urlFields then
              substURL data p k ((mapLookup data k).map TValue.val)
            else (mapLookup data k).map TValue.val) := by
  constructor
  · intro hbad
    obtain ⟨msg, st', hA⟩ := applyURLFields_error_of_fails p data urlFields
      (data.map (fun kv => (kv.1, TValue.val kv.2))) hbad
    exact ⟨msg, by simp [RenderWithSafeURLs, hA]⟩
  · intro hgood
    obtain ⟨sd', hA, hk⟩ := applyURLFields_ok_lookup p data urlFields (by decide)
      (data.map (fun kv => (kv.1, TValue.val kv.2))) hgood
    refine ⟨sd', by simp [RenderWithSafeURLs, hA], fun k => ?_⟩
    rw [hk k, mapLookup_liftData]

/-- Witness for C8: a `resetUrl` field holding a string the URL parser
rejects makes the render call fail. -/
theorem renderWithSafeURLs_url_field_handling_witness :
    ∃ msg, (RenderWithSafeURLs ⟨[]⟩ "welcome" [("resetUrl", GoVal.str "oops")]
        (fun _ => Except.error "parse error")).1 = Except.error msg :=
  (renderWithSafeURLs_url_field_handling ⟨[]⟩ "welcome"
      [("resetUrl", GoVal.str "oops")] (fun _ => Except.error "parse error")).1
    ⟨"resetUrl", by decide, "oops", rfl, by decide, "parse error", rfl⟩

/-! ## Theorems about the SMTP sender configuration -/

/-- A configuration whose SMTP server host is missing (empty). -/
def missingServerCfg : ApplicationConfig :=
  ⟨"8080", "localhost", "6379", "", 0, "", 587, "user", "pw", "a@b.c", "Name"⟩

/-- Claim C7 counterexample: constructing the sender over a configuration
with an empty SMTP server host raises no error — `NewSender` is plain struct
assembly and cannot fail — while the very first `SendEmail` call (and every
later one) reports the configuration error.  Configuration is therefore
checked per send, not at construction. -/
theorem smtp_config_not_checked_at_construction :
    NewSender missingServerCfg ⟨[]⟩ = ⟨missingServerCfg, ⟨[]⟩⟩ ∧
    validateSMTPConfig missingServerCfg = some "SMTP server is not configured" ∧
    SendEmail (NewSender missingServerCfg ⟨[]⟩) "a@x.com" "S" "T" []
        (fun s => Except.ok s) (fun _ => none) =
      some "invalid SMTP configuration: SMTP server is not configured" := by
  refine ⟨rfl, rfl, ?_⟩
  rfl

/-- Claim C7 (amended): a missing transport configuration value is reported
as a configuration error by `validateSMTPConfig` at the start of every
individual `SendEmail` call (before rendering or any network activity),
while `NewSender` performs no validation and always constructs the sender. -/
theorem smtp_config_checked_per_send
    (cfg : ApplicationConfig) (tmpl : Manager) (toAddr subject templateName : String)
    (data : List (String × GoVal)) (p : String → Except String String)
    (smtp : String → Option String) (e : String)
    (hc : validateSMTPConfig cfg = some e)
    (h1 : toAddr ≠ "") (h2 : subject ≠ "") (h3 : templateName ≠ "") :
    NewSender cfg tmpl = ⟨cfg, tmpl⟩ ∧
    SendEmail (NewSender cfg tmpl) toAddr subject templateName data p smtp =
      some ("invalid SMTP configuration: " ++ e) := by
  refine ⟨rfl, ?_⟩
  simp [SendEmail, NewSender, hc, h1, h2, h3]

/-- Witness for C7 (amended) at the concrete missing-server configuration. -/
theorem smtp_config_checked_per_send_witness :
    NewSender missingServerCfg ⟨[]⟩ = ⟨missingServerCfg, ⟨[]⟩⟩ ∧
    SendEmail (NewSender missingServerCfg ⟨[]⟩) "a@x.com" "S" "T" []
        (fun s => Except.ok s) (fun _ => none) =
      some ("invalid SMTP configuration: " ++ "SMTP server is not configured") :=
  smtp_config_checked_per_send missingServerCfg ⟨[]⟩ "a@x.com" "S" "T" []
    (fun s => Except.ok s) (fun _ => none) "SMTP server is not configured"
    rfl (by decide) (by decide) (by decide)

end MailQueue
